import Mathlib

/-!
Verification of the API Key / Service Reliability Manager
(`src/core/api_key_manager.py`, class `NeurosurgicalAPIKeyManager`).

The manager's state is, per service, a list of `APIKeyInfo` records.
Floats of the Python source are embedded as rationals (`Rat`): the
arithmetic performed by the manager (sums, convex combinations with
weights that are small dyadic/decimal fractions, comparisons against
decimal thresholds) is modelled exactly.  Timestamps are seconds since
an arbitrary epoch (`Nat`).  Python's `round(x, n)` is modelled as exact
half-even decimal rounding (`pyRound`), and `timedelta.seconds` — the
seconds component of a duration, excluding whole days — as the duration
modulo 86400 (`tdSeconds`).  Exceptions caught by the source's
`try/except` blocks are modelled by total functions returning the
state/default the handler produces; the one `await` inside `rotate_key`
where an exception can interrupt the rotation is modelled by an explicit
`fault` flag.
-/

namespace APIKeyManager

/-- `APIKeyStatus` enum of the source. -/
inductive APIKeyStatus where
  | active
  | rateLimited
  | expired
  | failed
  | rotating
deriving DecidableEq

/-- `ServiceHealth` enum of the source. -/
inductive ServiceHealth where
  | healthy
  | degraded
  | unhealthy
  | unknown
deriving DecidableEq

/-- The `APIKeyInfo` dataclass (fields that carry no behaviour in the
verified operations — `key_masked`, `rate_limit_remaining`,
`rate_limit_reset`, `created_at` — are omitted). -/
structure APIKeyInfo where
  key_id : String
  service : String
  status : APIKeyStatus
  last_used : Nat
  success_rate : Rat
  avg_response_time_ms : Rat
  daily_requests : Nat
  daily_cost : Rat
  failure_count : Int
  rotated_at : Option Nat := none
deriving DecidableEq

/-- `self.critical_failure_threshold = 5`. -/
def criticalFailureThreshold : Int := 5

/-- `self.daily_budget_per_service = 15.0`. -/
def dailyBudgetPerService : Rat := 15

/-- Exact half-even rounding to an integer (the rounding mode of
Python's builtin `round`). -/
def roundHalfEven (q : Rat) : Int :=
  let f := ⌊q⌋
  let frac := q - (f : Rat)
  if frac < 1 / 2 then f
  else if 1 / 2 < frac then f + 1
  else if f % 2 = 0 then f else f + 1

/-- Python's `round(q, ndigits)` for a nonnegative digit count. -/
def pyRound (q : Rat) (ndigits : Nat) : Rat :=
  (roundHalfEven (q * (10 : Rat) ^ ndigits) : Rat) / (10 : Rat) ^ ndigits

/-- The selection key of `get_active_key`:
`(k.failure_count, k.avg_response_time_ms, -k.success_rate)`. -/
def selTuple (k : APIKeyInfo) : Rat × Rat × Rat :=
  ((k.failure_count : Rat), k.avg_response_time_ms, -k.success_rate)

/-- Strict lexicographic order on selection tuples, as Python compares
3-tuples of floats. -/
def tupleLt (a b : Rat × Rat × Rat) : Prop :=
  a.1 < b.1 ∨ (a.1 = b.1 ∧ (a.2.1 < b.2.1 ∨ (a.2.1 = b.2.1 ∧ a.2.2 < b.2.2)))

instance (a b : Rat × Rat × Rat) : Decidable (tupleLt a b) := by
  unfold tupleLt; infer_instance

/-- Python's `min(x :: xs, key=selTuple)`: scan left keeping the current
minimum, replacing it only on a strictly smaller key (first minimum
wins ties). -/
def minByTuple (x : APIKeyInfo) (xs : List APIKeyInfo) : APIKeyInfo :=
  xs.foldl (fun best k => if tupleLt (selTuple k) (selTuple best) then k else best) x

/-- First filter of `get_active_key`:
`key.status == ACTIVE and key.failure_count < critical_failure_threshold`. -/
def isAvailable (k : APIKeyInfo) : Bool :=
  decide (k.status = .active) && decide (k.failure_count < criticalFailureThreshold)

/-- Widened filter of `get_active_key`: `key.status != FAILED`. -/
def notFailed (k : APIKeyInfo) : Bool :=
  decide (¬ k.status = .failed)

/-- The candidate set of `get_active_key`: active keys under the failure
threshold; if none, all non-failed keys. -/
def candidateKeys (keys : List APIKeyInfo) : List APIKeyInfo :=
  let avail := keys.filter isAvailable
  if avail.isEmpty then keys.filter notFailed else avail

/-- The pure selection core of `get_active_key`: `none` when even the
widened candidate set is empty (the `raise` branch). -/
def selectKeyFrom (keys : List APIKeyInfo) : Option APIKeyInfo :=
  match candidateKeys keys with
  | [] => none
  | x :: xs => some (minByTuple x xs)

/-- In-place mutation of the first record satisfying `p` (the Python
loops find one record object and mutate it). -/
def updateFirst (p : APIKeyInfo → Bool) (f : APIKeyInfo → APIKeyInfo) :
    List APIKeyInfo → List APIKeyInfo
  | [] => []
  | x :: xs => if p x then f x :: xs else x :: updateFirst p f xs

/-- The manager's `self.api_keys` dict: service name to key records. -/
abbrev KeyTable := List (String × List APIKeyInfo)

/-- `self.api_keys[service]` as a lookup (`none` = `KeyError` /
`service not in self.api_keys`). -/
def lookupService (t : KeyTable) (s : String) : Option (List APIKeyInfo) :=
  (t.find? (fun p => decide (p.1 = s))).map (·.2)

/-- Replace the record list of a service. -/
def updateService (t : KeyTable) (s : String) (keys : List APIKeyInfo) : KeyTable :=
  t.map (fun p => if p.1 = s then (p.1, keys) else p)

/-- The two exceptions `get_active_key` can raise: `ValueError` for an
unknown service, and the generic `Exception` for "No available API
keys" that the spec names `NoAvailableKeyError`. -/
inductive SelectError where
  | valueError
  | noAvailableKey
deriving DecidableEq

/-- `best_key.last_used = datetime.utcnow()` on the selected record. -/
def stampLastUsed (key_id : String) (now : Nat) (keys : List APIKeyInfo) :
    List APIKeyInfo :=
  updateFirst (fun k => decide (k.key_id = key_id))
    (fun k => { k with last_used := now }) keys

/-- `get_active_key(service)`: raise `ValueError` on an unknown service;
filter, widen, raise on empty; otherwise pick the minimum of the
selection tuple, stamp `last_used`, and return the key id (the secret
itself lives in the environment and carries no state). -/
def get_active_key (t : KeyTable) (service : String) (now : Nat) :
    Except SelectError (String × KeyTable) :=
  match lookupService t service with
  | none => .error .valueError
  | some keys =>
    match selectKeyFrom keys with
    | none => .error .noAvailableKey
    | some best =>
      .ok (best.key_id, updateService t service (stampLastUsed best.key_id now keys))

/-- The metric update of `record_api_call` on the found record, in
source order: bump `daily_requests` and `daily_cost`; EMA the success
rate (direct set on the first request of the day); EMA the response
time (direct set when the current average is `0`); then failure
bookkeeping and the threshold transition to `FAILED`. -/
def updateRecord (k : APIKeyInfo) (success : Bool) (response_time_ms cost : Rat) :
    APIKeyInfo :=
  let dr := k.daily_requests + 1
  let w : Rat := min (1 / 10) (1 / (dr : Rat))
  let newRate : Rat := if success then 100 else 0
  let sr := if dr = 1 then newRate
            else k.success_rate * (1 - w) + newRate * w
  let art := if k.avg_response_time_ms = 0 then response_time_ms
             else k.avg_response_time_ms * (1 - w) + response_time_ms * w
  let fc := if success then max 0 (k.failure_count - 1) else k.failure_count + 1
  let st := if success then k.status
            else if criticalFailureThreshold ≤ fc then APIKeyStatus.failed else k.status
  { k with daily_requests := dr, daily_cost := k.daily_cost + cost,
           success_rate := sr, avg_response_time_ms := art,
           failure_count := fc, status := st }

/-- `record_api_call` restricted to one service's record list: find the
record with the given `key_id`; if absent, log and return unchanged. -/
def recordCall (keys : List APIKeyInfo) (key_id : String) (success : Bool)
    (response_time_ms cost : Rat) : List APIKeyInfo :=
  match keys.find? (fun k => decide (k.key_id = key_id)) with
  | none => keys
  | some _ =>
    updateFirst (fun k => decide (k.key_id = key_id))
      (fun k => updateRecord k success response_time_ms cost) keys

/-- `record_api_call` on the whole table.  An unknown service raises
`KeyError` inside the `try`, which the blanket `except` swallows, so
the state is unchanged; an unknown `key_id` hits the early `return`. -/
def record_api_call (t : KeyTable) (service key_id : String) (success : Bool)
    (response_time_ms cost : Rat) : KeyTable :=
  match lookupService t service with
  | none => t
  | some keys =>
    match keys.find? (fun k => decide (k.key_id = key_id)) with
    | none => t
    | some _ => updateService t service (recordCall keys key_id success response_time_ms cost)

/-- The dict returned by `check_daily_budget`. -/
structure BudgetStatus where
  service : String
  daily_cost : Rat
  budget_limit : Rat
  budget_remaining : Rat
  budget_used_percent : Rat
  status : String
deriving DecidableEq

/-- `check_daily_budget` for one service's records: sum the daily costs,
subtract from the budget, classify, and round the reported figures. -/
def check_daily_budget (service : String) (keys : List APIKeyInfo) : BudgetStatus :=
  let total_cost := (keys.map (·.daily_cost)).sum
  let budget_remaining := dailyBudgetPerService - total_cost
  let status := if budget_remaining ≤ 0 then "exceeded"
                else if budget_remaining < 2 then "warning"
                else "ok"
  { service := service
    daily_cost := pyRound total_cost 2
    budget_limit := dailyBudgetPerService
    budget_remaining := pyRound budget_remaining 2
    budget_used_percent := pyRound (total_cost / dailyBudgetPerService * 100) 1
    status := status }

/-- The `ServiceMetrics` dataclass (`last_health_check` omitted: it is a
wall-clock stamp with no behaviour). -/
structure ServiceMetrics where
  service : String
  health : ServiceHealth
  total_keys : Nat
  active_keys : Nat
  primary_key_id : String
  backup_key_ids : List String
  daily_cost : Rat
  daily_requests : Nat
  success_rate : Rat
  avg_response_time_ms : Rat
  circuit_breaker_open : Bool
  estimated_monthly_cost : Rat
deriving DecidableEq

/-- `get_service_health` for one service's records: the `Unknown`
snapshot for an empty list, otherwise request-weighted averages,
the health cascade, and `circuit_breaker_open = (active_keys == 0)`. -/
def get_service_health (service : String) (keys : List APIKeyInfo) : ServiceMetrics :=
  match keys with
  | [] =>
    { service := service, health := .unknown, total_keys := 0, active_keys := 0,
      primary_key_id := "", backup_key_ids := [], daily_cost := 0, daily_requests := 0,
      success_rate := 0, avg_response_time_ms := 0, circuit_breaker_open := false,
      estimated_monthly_cost := 0 }
  | k0 :: _ =>
    let active_keys := (keys.filter (fun k => decide (k.status = .active))).length
    let daily_cost := (keys.map (·.daily_cost)).sum
    let daily_requests := (keys.map (·.daily_requests)).sum
    let success_rate : Rat :=
      if 0 < daily_requests then
        (keys.map (fun k => k.success_rate * (k.daily_requests : Rat))).sum /
          (daily_requests : Rat)
      else 100
    let avg_response_time : Rat :=
      if 0 < daily_requests then
        (keys.map (fun k => k.avg_response_time_ms * (k.daily_requests : Rat))).sum /
          (daily_requests : Rat)
      else 0
    let health := if active_keys = 0 then ServiceHealth.unhealthy
                  else if success_rate < 80 ∨ 5000 < avg_response_time then
                    ServiceHealth.degraded
                  else ServiceHealth.healthy
    let primary := (keys.find? (fun k => decide (k.key_id = "primary"))).getD k0
    { service := service, health := health, total_keys := keys.length,
      active_keys := active_keys, primary_key_id := primary.key_id,
      backup_key_ids := ((keys.filter (fun k => decide (¬ k.key_id = primary.key_id))).map
        (·.key_id)),
      daily_cost := pyRound daily_cost 2, daily_requests := daily_requests,
      success_rate := pyRound success_rate 1,
      avg_response_time_ms := pyRound avg_response_time 2,
      circuit_breaker_open := decide (active_keys = 0),
      estimated_monthly_cost := pyRound (daily_cost * 30) 2 }

/-- The metric reset `rotate_key` applies on completion. -/
def resetRecord (k : APIKeyInfo) : APIKeyInfo :=
  { k with status := .active, failure_count := 0, success_rate := 100,
           daily_requests := 0, daily_cost := 0 }

/-- `rotate_key` on one service's records.  `fault = true` models an
exception at the `await asyncio.sleep(1)` — the only suspension between
entering `ROTATING` and completing — caught by the surrounding
`except`, which returns `False` and leaves the record as marked. -/
def rotate_key (keys : List APIKeyInfo) (key_id : String) (now : Nat) (fault : Bool) :
    Bool × List APIKeyInfo :=
  match keys.find? (fun k => decide (k.key_id = key_id)) with
  | none => (false, keys)
  | some _ =>
    let p := fun k : APIKeyInfo => decide (k.key_id = key_id)
    let marked := updateFirst p
      (fun k => { k with status := .rotating, rotated_at := some now }) keys
    if fault then (false, marked)
    else (true, updateFirst p resetRecord marked)

/-- `timedelta.seconds` of a nonnegative duration: the seconds
component, whole days excluded. -/
def tdSeconds (now last_used : Nat) : Nat := (now - last_used) % 86400

/-- The recovery step of `_health_check_service` on one record: a
`FAILED` record whose `(utcnow - last_used).seconds` exceeds 3600 has
its failure count decremented (floor 0) and returns to `ACTIVE` when
the new count is below the threshold. -/
def recoverRecord (now : Nat) (k : APIKeyInfo) : APIKeyInfo :=
  if k.status = .failed then
    if 3600 < tdSeconds now k.last_used then
      let fc := max 0 (k.failure_count - 1)
      { k with failure_count := fc,
               status := if fc < criticalFailureThreshold then .active else k.status }
    else k
  else k

/-- `_health_check_service` over a service's record list. -/
def health_check_service (now : Nat) (keys : List APIKeyInfo) : List APIKeyInfo :=
  keys.map (recoverRecord now)

/-- `_daily_reset` restricted to one service's records. -/
def daily_reset (keys : List APIKeyInfo) : List APIKeyInfo :=
  keys.map (fun k => { k with daily_requests := 0, daily_cost := 0 })

end APIKeyManager

namespace APIKeyManager

theorem tupleLt_irrefl (a : Rat × Rat × Rat) : ¬ tupleLt a a := by
  intro h
  rcases h with h | ⟨_, h | ⟨_, h⟩⟩ <;> exact lt_irrefl _ h

theorem tupleLt_trans {a b c : Rat × Rat × Rat}
    (h1 : tupleLt a b) (h2 : tupleLt b c) : tupleLt a c := by
  rcases h1 with h1 | ⟨e1, h1⟩
  · rcases h2 with h2 | ⟨e2, _⟩
    · exact Or.inl (h1.trans h2)
    · exact Or.inl (lt_of_lt_of_le h1 (le_of_eq e2))
  · rcases h2 with h2 | ⟨e2, h2⟩
    · exact Or.inl (lt_of_le_of_lt (le_of_eq e1) h2)
    · refine Or.inr ⟨e1.trans e2, ?_⟩
      rcases h1 with h1 | ⟨f1, h1⟩
      · rcases h2 with h2 | ⟨f2, _⟩
        · exact Or.inl (h1.trans h2)
        · exact Or.inl (lt_of_lt_of_le h1 (le_of_eq f2))
      · rcases h2 with h2 | ⟨f2, h2⟩
        · exact Or.inl (lt_of_le_of_lt (le_of_eq f1) h2)
        · exact Or.inr ⟨f1.trans f2, h1.trans h2⟩

theorem tupleLt_resolve {a b : Rat × Rat × Rat} (h : ¬ tupleLt b a) :
    tupleLt a b ∨ (a.1 = b.1 ∧ a.2.1 = b.2.1 ∧ a.2.2 = b.2.2) := by
  rcases lt_trichotomy a.1 b.1 with h1 | h1 | h1
  · exact Or.inl (Or.inl h1)
  · rcases lt_trichotomy a.2.1 b.2.1 with h2 | h2 | h2
    · exact Or.inl (Or.inr ⟨h1, Or.inl h2⟩)
    · rcases lt_trichotomy a.2.2 b.2.2 with h3 | h3 | h3
      · exact Or.inl (Or.inr ⟨h1, Or.inr ⟨h2, h3⟩⟩)
      · exact Or.inr ⟨h1, h2, h3⟩
      · exact absurd (show tupleLt b a from Or.inr ⟨h1.symm, Or.inr ⟨h2.symm, h3⟩⟩) h
    · exact absurd (show tupleLt b a from Or.inr ⟨h1.symm, Or.inl h2⟩) h
  · exact absurd (show tupleLt b a from Or.inl h1) h

theorem tupleLt_trans_of_not {a b c : Rat × Rat × Rat}
    (hba : ¬ tupleLt b a) (hbc : tupleLt b c) : tupleLt a c := by
  rcases tupleLt_resolve hba with h | ⟨e1, e2, e3⟩
  · exact tupleLt_trans h hbc
  · unfold tupleLt at hbc ⊢
    rw [e1, e2, e3]
    exact hbc

theorem minByTuple_step (x y : APIKeyInfo) (ys : List APIKeyInfo) :
    minByTuple x (y :: ys)
      = minByTuple (if tupleLt (selTuple y) (selTuple x) then y else x) ys := rfl

theorem minByTuple_mem (x : APIKeyInfo) (xs : List APIKeyInfo) :
    minByTuple x xs ∈ x :: xs := by
  induction xs generalizing x with
  | nil => simp [minByTuple]
  | cons y ys ih =>
    by_cases hc : tupleLt (selTuple y) (selTuple x)
    · rw [minByTuple_step, if_pos hc]
      rcases List.mem_cons.mp (ih y) with h | h
      · rw [h]
        exact List.mem_cons.mpr (Or.inr (List.mem_cons_self y ys))
      · exact List.mem_cons.mpr (Or.inr (List.mem_cons.mpr (Or.inr h)))
    · rw [minByTuple_step, if_neg hc]
      rcases List.mem_cons.mp (ih x) with h | h
      · rw [h]
        exact List.mem_cons_self x (y :: ys)
      · exact List.mem_cons.mpr (Or.inr (List.mem_cons.mpr (Or.inr h)))

theorem minByTuple_not_lt (x : APIKeyInfo) (xs : List APIKeyInfo) :
    ∀ j ∈ x :: xs, ¬ tupleLt (selTuple j) (selTuple (minByTuple x xs)) := by
  induction xs generalizing x with
  | nil =>
    intro j hj
    rcases List.mem_cons.mp hj with rfl | h
    · simpa [minByTuple] using tupleLt_irrefl (selTuple j)
    · exact absurd h (List.not_mem_nil j)
  | cons y ys ih =>
    intro j hj
    by_cases hc : tupleLt (selTuple y) (selTuple x)
    · rw [minByTuple_step, if_pos hc]
      rcases List.mem_cons.mp hj with rfl | hj'
      · intro hlt
        exact ih y y (List.mem_cons_self y ys) (tupleLt_trans hc hlt)
      · exact ih y j hj'
    · rw [minByTuple_step, if_neg hc]
      rcases List.mem_cons.mp hj with rfl | hj'
      · exact ih j j (List.mem_cons_self j ys)
      · rcases List.mem_cons.mp hj' with rfl | hj''
        · intro hlt
          exact ih x x (List.mem_cons_self x ys) (tupleLt_trans_of_not hc hlt)
        · exact ih x j (List.mem_cons.mpr (Or.inr hj''))

theorem candidateKeys_of_avail (keys : List APIKeyInfo)
    (h : ¬ keys.filter isAvailable = []) :
    candidateKeys keys = keys.filter isAvailable := by
  unfold candidateKeys
  simp [List.isEmpty_iff, h]

theorem candidateKeys_of_empty_avail (keys : List APIKeyInfo)
    (h : keys.filter isAvailable = []) :
    candidateKeys keys = keys.filter notFailed := by
  unfold candidateKeys
  simp [List.isEmpty_iff, h]

/-- `selectKeyFrom` returns a member of the candidate set that no other
candidate strictly beats in the selection order. -/
theorem selectKeyFrom_min (keys : List APIKeyInfo)
    (h : ¬ candidateKeys keys = []) :
    ∃ best ∈ candidateKeys keys, selectKeyFrom keys = some best ∧
      ∀ j ∈ candidateKeys keys, ¬ tupleLt (selTuple j) (selTuple best) := by
  unfold selectKeyFrom
  rcases hc : candidateKeys keys with _ | ⟨x, xs⟩
  · exact absurd hc h
  · exact ⟨minByTuple x xs, minByTuple_mem x xs, rfl, minByTuple_not_lt x xs⟩

end APIKeyManager

namespace APIKeyManager

/-- C1: for a known service, when some record is Active with
`failure_count < FAILURE_THRESHOLD`, `get_active_key` returns the key id
of a record of that candidate set which no candidate strictly beats in
the lexicographic order on `(failure_count, avg_response_time_ms,
-success_rate)`; when that set is empty the same holds over the records
with status ≠ Failed; when that is also empty it fails with the
no-available-key error. -/
theorem selectKey_minimizes (t : KeyTable) (service : String) (now : Nat)
    (keys : List APIKeyInfo) (hl : lookupService t service = some keys) :
    (¬ keys.filter isAvailable = [] →
      ∃ best ∈ keys.filter isAvailable,
        (∀ j ∈ keys.filter isAvailable, ¬ tupleLt (selTuple j) (selTuple best)) ∧
        ∃ t', get_active_key t service now = .ok (best.key_id, t')) ∧
    (keys.filter isAvailable = [] → ¬ keys.filter notFailed = [] →
      ∃ best ∈ keys.filter notFailed,
        (∀ j ∈ keys.filter notFailed, ¬ tupleLt (selTuple j) (selTuple best)) ∧
        ∃ t', get_active_key t service now = .ok (best.key_id, t')) ∧
    (keys.filter isAvailable = [] → keys.filter notFailed = [] →
      get_active_key t service now = .error .noAvailableKey) := by
  refine ⟨?_, ?_, ?_⟩
  · intro h
    have hc := candidateKeys_of_avail keys h
    have hne : ¬ candidateKeys keys = [] := by rw [hc]; exact h
    obtain ⟨best, hmem, hsel, hmin⟩ := selectKeyFrom_min keys hne
    rw [hc] at hmem hmin
    refine ⟨best, hmem, hmin, updateService t service (stampLastUsed best.key_id now keys), ?_⟩
    simp only [get_active_key, hl, hsel]
  · intro h1 h2
    have hc := candidateKeys_of_empty_avail keys h1
    have hne : ¬ candidateKeys keys = [] := by rw [hc]; exact h2
    obtain ⟨best, hmem, hsel, hmin⟩ := selectKeyFrom_min keys hne
    rw [hc] at hmem hmin
    refine ⟨best, hmem, hmin, updateService t service (stampLastUsed best.key_id now keys), ?_⟩
    simp only [get_active_key, hl, hsel]
  · intro h1 h2
    have hc : candidateKeys keys = [] := by
      rw [candidateKeys_of_empty_avail keys h1]; exact h2
    have hsel : selectKeyFrom keys = none := by
      unfold selectKeyFrom; rw [hc]
    simp only [get_active_key, hl, hsel]

/-- Example scenario: two Active keys, A with 2 recent failures and B
with none. -/
def keyA : APIKeyInfo :=
  { key_id := "A", service := "openai", status := .active, last_used := 0,
    success_rate := 100, avg_response_time_ms := 50, daily_requests := 0,
    daily_cost := 0, failure_count := 2 }

def keyB : APIKeyInfo := { keyA with key_id := "B", failure_count := 0 }

theorem selectKey_minimizes_witness :
    ∃ best ∈ [keyA, keyB].filter isAvailable,
      (∀ j ∈ [keyA, keyB].filter isAvailable, ¬ tupleLt (selTuple j) (selTuple best)) ∧
      ∃ t', get_active_key [("openai", [keyA, keyB])] "openai" 7 = .ok (best.key_id, t') := by
  have h := selectKey_minimizes [("openai", [keyA, keyB])] "openai" 7 [keyA, keyB]
    (by decide)
  exact h.1 (by decide)

/-- C8 (amended): on a known service the only exception `get_active_key`
raises is the no-available-key error; an unknown service name raises
`ValueError`. -/
theorem selectKey_error_taxonomy (t : KeyTable) (service : String) (now : Nat) :
    (lookupService t service = none →
      get_active_key t service now = .error .valueError) ∧
    (∀ keys, lookupService t service = some keys →
      ∀ e, get_active_key t service now = .error e → e = .noAvailableKey) := by
  constructor
  · intro h
    simp only [get_active_key, h]
  · intro keys h e he
    simp only [get_active_key, h] at he
    cases hsel : selectKeyFrom keys with
    | none =>
      rw [hsel] at he
      injection he with h2
      exact h2.symm
    | some b =>
      rw [hsel] at he
      simp at he

theorem selectKey_error_taxonomy_witness :
    get_active_key [("openai", [keyA, keyB])] "gemini" 0 = .error .valueError := by
  exact (selectKey_error_taxonomy [("openai", [keyA, keyB])] "gemini" 0).1 (by decide)

/-- C8 counterexample: `selectKey` on a service name absent from the key
table raises `ValueError`, not the no-available-key error, so the
no-available-key error is not the only exception `selectKey` lets
escape. -/
theorem selectKey_raises_valueError_counterexample :
    get_active_key [("openai", [keyA, keyB])] "nosuch" 0 = .error .valueError ∧
    SelectError.valueError ≠ SelectError.noAvailableKey := by
  exact ⟨rfl, by decide⟩

end APIKeyManager

namespace APIKeyManager

theorem updateRecord_fail_fields (k : APIKeyInfo) (rt c : Rat) :
    (updateRecord k false rt c).failure_count = k.failure_count + 1 ∧
    (updateRecord k false rt c).status =
      (if criticalFailureThreshold ≤ k.failure_count + 1 then APIKeyStatus.failed
       else k.status) ∧
    (updateRecord k false rt c).key_id = k.key_id :=
  ⟨rfl, rfl, rfl⟩

theorem updateRecord_fail_progress (k : APIKeyInfo) (rt c : Rat) (n : Int)
    (hfc : k.failure_count = n) (hn : n + 1 < criticalFailureThreshold)
    (hst : k.status = .active) :
    (updateRecord k false rt c).failure_count = n + 1 ∧
    (updateRecord k false rt c).status = .active ∧
    (updateRecord k false rt c).key_id = k.key_id := by
  obtain ⟨h1, h2, h3⟩ := updateRecord_fail_fields k rt c
  refine ⟨by rw [h1, hfc], ?_, h3⟩
  rw [h2, hfc, if_neg (by omega), hst]

theorem updateRecord_fail_trip (k : APIKeyInfo) (rt c : Rat)
    (hfc : criticalFailureThreshold ≤ k.failure_count + 1) :
    (updateRecord k false rt c).status = .failed ∧
    (updateRecord k false rt c).failure_count = k.failure_count + 1 := by
  obtain ⟨h1, h2, _⟩ := updateRecord_fail_fields k rt c
  exact ⟨by rw [h2, if_pos hfc], h1⟩

theorem recordCall_singleton (r : APIKeyInfo) (kid : String) (hk : r.key_id = kid)
    (s : Bool) (rt c : Rat) :
    recordCall [r] kid s rt c = [updateRecord r s rt c] := by
  subst hk
  simp [recordCall, updateFirst]

end APIKeyManager

namespace APIKeyManager

/-- C2: a service whose only key starts Active with zero failures ends
with that key Failed after 5 (= FAILURE_THRESHOLD) consecutive failed
outcome recordings, at which point the health snapshot reports the
circuit breaker open and key selection fails with the no-available-key
error. -/
theorem failure_threshold_opens_breaker (service : String) (r : APIKeyInfo)
    (hfc : r.failure_count = 0) (hst : r.status = .active)
    (calls : List (Rat × Rat)) (hlen : calls.length = 5) (final : List APIKeyInfo)
    (hfin : calls.foldl (fun ks pc => recordCall ks r.key_id false pc.1 pc.2) [r]
      = final) :
    ∃ r', final = [r'] ∧ r'.status = .failed ∧ r'.failure_count = 5 ∧
      (get_service_health service final).circuit_breaker_open = true ∧
      get_active_key [(service, final)] service 0 = .error .noAvailableKey := by
  rcases calls with _ | ⟨c1, calls⟩
  · simp at hlen
  rcases calls with _ | ⟨c2, calls⟩
  · simp at hlen
  rcases calls with _ | ⟨c3, calls⟩
  · simp at hlen
  rcases calls with _ | ⟨c4, calls⟩
  · simp at hlen
  rcases calls with _ | ⟨c5, calls⟩
  · simp at hlen
  rcases calls with _ | ⟨c6, calls⟩
  case cons => simp at hlen
  subst hfin
  simp only [List.foldl]
  rw [recordCall_singleton r r.key_id rfl,
      recordCall_singleton (updateRecord r false c1.1 c1.2) r.key_id rfl,
      recordCall_singleton
        (updateRecord (updateRecord r false c1.1 c1.2) false c2.1 c2.2) r.key_id rfl,
      recordCall_singleton
        (updateRecord (updateRecord (updateRecord r false c1.1 c1.2) false c2.1 c2.2)
          false c3.1 c3.2) r.key_id rfl,
      recordCall_singleton
        (updateRecord (updateRecord (updateRecord (updateRecord r false c1.1 c1.2)
          false c2.1 c2.2) false c3.1 c3.2) false c4.1 c4.2) r.key_id rfl]
  obtain ⟨g1fc, g1st, _⟩ := updateRecord_fail_progress r c1.1 c1.2 0 hfc
    (by norm_num [criticalFailureThreshold]) hst
  obtain ⟨g2fc, g2st, _⟩ := updateRecord_fail_progress _ c2.1 c2.2 1 g1fc
    (by norm_num [criticalFailureThreshold]) g1st
  obtain ⟨g3fc, g3st, _⟩ := updateRecord_fail_progress _ c3.1 c3.2 2 g2fc
    (by norm_num [criticalFailureThreshold]) g2st
  obtain ⟨g4fc, g4st, _⟩ := updateRecord_fail_progress _ c4.1 c4.2 3 g3fc
    (by norm_num [criticalFailureThreshold]) g3st
  obtain ⟨g5st, g5fc⟩ := updateRecord_fail_trip _ c5.1 c5.2
    (by rw [g4fc]; norm_num [criticalFailureThreshold])
  refine ⟨_, rfl, g5st, ?_, ?_, ?_⟩
  · rw [g5fc, g4fc]
    norm_num
  · simp [get_service_health, g5st]
  · simp [get_active_key, lookupService, selectKeyFrom, candidateKeys,
      isAvailable, notFailed, g5st]

/-- The single key of the C2 example scenario. -/
def c2Key : APIKeyInfo :=
  { key_id := "primary", service := "claude", status := .active, last_used := 0,
    success_rate := 100, avg_response_time_ms := 0, daily_requests := 0,
    daily_cost := 0, failure_count := 0 }

/-- Five consecutive failed calls on the only key of the C2 scenario. -/
def c2Final : List APIKeyInfo :=
  [((1 : Rat), (0 : Rat)), (1, 0), (1, 0), (1, 0), (1, 0)].foldl
    (fun ks pc => recordCall ks c2Key.key_id false pc.1 pc.2) [c2Key]

theorem failure_threshold_opens_breaker_witness :
    ∃ r', c2Final = [r'] ∧ r'.status = .failed ∧ r'.failure_count = 5 ∧
      (get_service_health "claude" c2Final).circuit_breaker_open = true ∧
      get_active_key [("claude", c2Final)] "claude" 0 = .error .noAvailableKey := by
  exact failure_threshold_opens_breaker "claude" c2Key rfl rfl
    [((1 : Rat), (0 : Rat)), (1, 0), (1, 0), (1, 0), (1, 0)] (by decide) c2Final rfl

end APIKeyManager

namespace APIKeyManager

/-- The bounded exponential moving average the Call Recorder applies
when it does not set a metric directly: weight `min(0.1, 1/n)` on the
new observation. -/
def boundedEMA (old new : Rat) (n : Nat) : Rat :=
  old * (1 - min (1 / 10) (1 / (n : Rat))) + new * min (1 / 10) (1 / (n : Rat))

/-- A record that carried a nonzero response-time average over a daily
reset: the day's request counter is back at 0 but the rolling average
is still 100 ms. -/
def c3Key : APIKeyInfo :=
  { key_id := "primary", service := "openai", status := .active, last_used := 0,
    success_rate := 90, avg_response_time_ms := 100, daily_requests := 0,
    daily_cost := 0, failure_count := 0 }

/-- C3 counterexample: on the first request of the day (the counter
becomes 1) with a 200 ms sample, the code does not set
`avg_response_time_ms` directly to 200 — because the current average is
nonzero it blends with weight `min(0.1, 1/1) = 0.1`, yielding 110. -/
theorem first_sample_counterexample :
    (updateRecord c3Key true 200 0).daily_requests = 1 ∧
    (updateRecord c3Key true 200 0).avg_response_time_ms = 110 ∧
    (110 : Rat) ≠ 200 := by
  refine ⟨rfl, ?_, by norm_num⟩
  norm_num [updateRecord, c3Key, min_def]

/-- C3 (amended): `record_api_call` on a found record increments the
day's counters, sets `success_rate` directly on the first request of
the day and otherwise applies the bounded EMA with weight
`min(0.1, 1/daily_requests)`; `avg_response_time_ms` is set directly
exactly when its current value is 0 (not when the sample is the first
of the day), and otherwise follows the same EMA. -/
theorem ema_update_amended (k : APIKeyInfo) (success : Bool) (rt cost : Rat) :
    (updateRecord k success rt cost).daily_requests = k.daily_requests + 1 ∧
    (updateRecord k success rt cost).daily_cost = k.daily_cost + cost ∧
    (updateRecord k success rt cost).success_rate =
      (if k.daily_requests + 1 = 1 then (if success then 100 else 0)
       else boundedEMA k.success_rate (if success then 100 else 0)
        (k.daily_requests + 1)) ∧
    (updateRecord k success rt cost).avg_response_time_ms =
      (if k.avg_response_time_ms = 0 then rt
       else boundedEMA k.avg_response_time_ms rt (k.daily_requests + 1)) := by
  refine ⟨rfl, rfl, rfl, rfl⟩

/-- C10: `record_api_call` with a key id that names no record of the
service leaves the whole key table unchanged (and, being total, returns
without raising). -/
theorem record_unknown_key_noop (t : KeyTable) (service key_id : String)
    (success : Bool) (rt cost : Rat)
    (h : ∀ k ∈ (lookupService t service).getD [], ¬ k.key_id = key_id) :
    record_api_call t service key_id success rt cost = t := by
  cases hl : lookupService t service with
  | none => simp only [record_api_call, hl]
  | some keys =>
    rw [hl] at h
    simp only [Option.getD_some] at h
    have hf : keys.find? (fun k => decide (k.key_id = key_id)) = none :=
      List.find?_eq_none.mpr (fun x hx => by simpa using h x hx)
    simp only [record_api_call, hl, hf]

theorem record_unknown_key_noop_witness :
    record_api_call [("openai", [keyA, keyB])] "openai" "Z" true 5 1
      = [("openai", [keyA, keyB])] := by
  exact record_unknown_key_noop [("openai", [keyA, keyB])] "openai" "Z" true 5 1
    (by decide)

end APIKeyManager

namespace APIKeyManager

/-- A record whose recorded cost has a third decimal digit. -/
def c5Key : APIKeyInfo :=
  { key_id := "primary", service := "perplexity", status := .active, last_used := 0,
    success_rate := 100, avg_response_time_ms := 0, daily_requests := 3,
    daily_cost := 1234 / 1000, failure_count := 0 }

/-- C5 counterexample: with an accumulated cost of 1.234, the
`budget_remaining` field the operation returns is the 2-decimal
rounding 13.77, not `limit - Σ daily_cost = 13.766`. -/
theorem budget_remaining_rounded_counterexample :
    (check_daily_budget "perplexity" [c5Key]).budget_remaining = 1377 / 100 ∧
    dailyBudgetPerService - (([c5Key].map (·.daily_cost))).sum = 13766 / 1000 ∧
    (1377 / 100 : Rat) ≠ 13766 / 1000 := by
  have hsum : (([c5Key].map (·.daily_cost))).sum = 1234 / 1000 := by
    simp [c5Key]
  have hfloor : ⌊(13766 / 10 : Rat)⌋ = 1376 :=
    Int.floor_eq_iff.mpr (by norm_num)
  refine ⟨?_, ?_, by norm_num⟩
  · show pyRound (dailyBudgetPerService - (([c5Key].map (·.daily_cost))).sum) 2 = 1377 / 100
    rw [hsum]
    have harg : (dailyBudgetPerService - 1234 / 1000) * (10 : Rat) ^ (2 : Nat)
        = 13766 / 10 := by
      norm_num [dailyBudgetPerService]
    unfold pyRound roundHalfEven
    rw [harg, hfloor]
    norm_num
  · rw [hsum]
    norm_num [dailyBudgetPerService]

/-- C5 (amended): `checkBudget` reads the records and returns
`budget_remaining` equal to the 2-decimal rounding of
`limit - Σ daily_cost`; the status is computed from the unrounded
remainder: "exceeded" iff `remaining ≤ 0`, "warning" iff
`0 < remaining < 2`, "ok" iff `2 ≤ remaining`; the operation has no
side effect on the records (it is a pure function of them). -/
theorem budget_arithmetic_amended (service : String) (keys : List APIKeyInfo) :
    (check_daily_budget service keys).budget_remaining =
      pyRound (dailyBudgetPerService - (keys.map (·.daily_cost)).sum) 2 ∧
    ((check_daily_budget service keys).status = "exceeded" ↔
      dailyBudgetPerService - (keys.map (·.daily_cost)).sum ≤ 0) ∧
    ((check_daily_budget service keys).status = "warning" ↔
      (0 < dailyBudgetPerService - (keys.map (·.daily_cost)).sum ∧
        dailyBudgetPerService - (keys.map (·.daily_cost)).sum < 2)) ∧
    ((check_daily_budget service keys).status = "ok" ↔
      2 ≤ dailyBudgetPerService - (keys.map (·.daily_cost)).sum) := by
  have hst : (check_daily_budget service keys).status =
      (if dailyBudgetPerService - (keys.map (·.daily_cost)).sum ≤ 0 then "exceeded"
       else if dailyBudgetPerService - (keys.map (·.daily_cost)).sum < 2 then "warning"
       else "ok") := rfl
  refine ⟨rfl, ?_, ?_, ?_⟩
  · rw [hst]
    split_ifs with h1 h2
    · exact iff_of_true rfl h1
    · exact iff_of_false (by decide) h1
    · exact iff_of_false (by decide) h1
  · rw [hst]
    split_ifs with h1 h2
    · exact iff_of_false (by decide) (fun hx => absurd h1 (not_le.mpr hx.1))
    · exact iff_of_true rfl ⟨not_le.mp h1, h2⟩
    · exact iff_of_false (by decide) (fun hx => h2 hx.2)
  · rw [hst]
    split_ifs with h1 h2
    · exact iff_of_false (by decide) (fun hx => by linarith)
    · exact iff_of_false (by decide) (fun hx => (not_lt.mpr hx) h2)
    · exact iff_of_true rfl (not_lt.mp h2)

end APIKeyManager

namespace APIKeyManager

/-- The claim's request-weighted success rate: weights are
`daily_requests`; defaults to 100 when the total weight is 0. -/
def weightedSuccessRate (keys : List APIKeyInfo) : Rat :=
  if (keys.map (·.daily_requests)).sum = 0 then 100
  else (keys.map (fun k => k.success_rate * (k.daily_requests : Rat))).sum /
    (((keys.map (·.daily_requests)).sum : Nat) : Rat)

/-- The claim's request-weighted response time; defaults to 0 when the
total weight is 0. -/
def weightedAvgResponse (keys : List APIKeyInfo) : Rat :=
  if (keys.map (·.daily_requests)).sum = 0 then 0
  else (keys.map (fun k => k.avg_response_time_ms * (k.daily_requests : Rat))).sum /
    (((keys.map (·.daily_requests)).sum : Nat) : Rat)

/-- Number of records with status Active. -/
def activeCount (keys : List APIKeyInfo) : Nat :=
  (keys.filter (fun k => decide (k.status = .active))).length

theorem if_pos_sum {α : Type} (n : Nat) (a b : α) :
    (if 0 < n then a else b) = (if n = 0 then b else a) := by
  by_cases h : n = 0
  · simp [h]
  · simp [h, Nat.pos_of_ne_zero h]

/-- C6: the health cascade of `get_service_health` — Unknown (breaker
closed) for a service with no records; else Unhealthy exactly when no
record is Active (and exactly then the breaker is open); else Degraded
when the weighted success rate is below 80 or the weighted response
time exceeds 5000; else Healthy. -/
theorem health_classification (service : String) (keys : List APIKeyInfo) :
    (get_service_health service keys).health =
      (if keys = [] then ServiceHealth.unknown
       else if activeCount keys = 0 then ServiceHealth.unhealthy
       else if weightedSuccessRate keys < 80 ∨ 5000 < weightedAvgResponse keys then
         ServiceHealth.degraded
       else ServiceHealth.healthy) ∧
    (get_service_health service keys).circuit_breaker_open =
      (decide (¬ keys = []) && decide (activeCount keys = 0)) := by
  cases keys with
  | nil => constructor <;> simp [get_service_health]
  | cons k0 tl =>
    constructor
    · simp only [get_service_health, weightedSuccessRate, weightedAvgResponse,
        activeCount, if_neg (List.cons_ne_nil k0 tl)]
      rw [if_pos_sum, if_pos_sum]
    · simp [get_service_health, activeCount]

end APIKeyManager

namespace APIKeyManager

theorem updateFirst_comp (p : APIKeyInfo → Bool) (f g : APIKeyInfo → APIKeyInfo)
    (hp : ∀ k, p k = true → p (f k) = true) (keys : List APIKeyInfo) :
    updateFirst p g (updateFirst p f keys) = updateFirst p (fun k => g (f k)) keys := by
  induction keys with
  | nil => rfl
  | cons x xs ih =>
    by_cases hx : p x = true
    · simp [updateFirst, hx, hp x hx]
    · simp [updateFirst, hx, ih]

theorem updateFirst_mem_of_find (p : APIKeyInfo → Bool) (f : APIKeyInfo → APIKeyInfo) :
    ∀ (keys : List APIKeyInfo) (k : APIKeyInfo), keys.find? p = some k →
      f k ∈ updateFirst p f keys := by
  intro keys
  induction keys with
  | nil =>
    intro k h
    simp at h
  | cons x xs ih =>
    intro k h
    by_cases hx : p x = true
    · rw [List.find?_cons_of_pos _ hx] at h
      cases h
      simp [updateFirst, hx]
    · rw [List.find?_cons_of_neg _ hx] at h
      simp only [updateFirst, if_neg hx]
      exact List.mem_cons.mpr (Or.inr (ih k h))

/-- C7: rotating an existing key either completes — returning `true`
with the record reset to a fresh Active state — or is interrupted by an
exception, in which case `rotate` returns `false` without raising and
the record is left in Rotating. -/
theorem rotate_resets_or_leaves_rotating (keys : List APIKeyInfo) (key_id : String)
    (now : Nat) (k : APIKeyInfo)
    (hfind : keys.find? (fun j => decide (j.key_id = key_id)) = some k) :
    ((rotate_key keys key_id now false).1 = true ∧
      ∃ k' ∈ (rotate_key keys key_id now false).2, k'.key_id = key_id ∧
        k'.status = .active ∧ k'.failure_count = 0 ∧ k'.success_rate = 100 ∧
        k'.daily_requests = 0 ∧ k'.daily_cost = 0) ∧
    ((rotate_key keys key_id now true).1 = false ∧
      ∃ k' ∈ (rotate_key keys key_id now true).2, k'.key_id = key_id ∧
        k'.status = .rotating) := by
  have hpk : k.key_id = key_id := by
    have := List.find?_some hfind
    exact of_decide_eq_true this
  have hres : rotate_key keys key_id now false =
      (true, updateFirst (fun j => decide (j.key_id = key_id))
        (fun j => resetRecord { j with status := .rotating, rotated_at := some now })
        keys) := by
    simp only [rotate_key, hfind]
    rw [if_neg Bool.false_ne_true,
      updateFirst_comp (fun j => decide (j.key_id = key_id))
        (fun j => { j with status := .rotating, rotated_at := some now }) resetRecord
        (fun j hj => hj) keys]
  have hres2 : rotate_key keys key_id now true =
      (false, updateFirst (fun j => decide (j.key_id = key_id))
        (fun j => { j with status := .rotating, rotated_at := some now }) keys) := by
    simp only [rotate_key, hfind]
    simp only [if_true, ite_true]
  refine ⟨⟨by rw [hres], ?_⟩, ⟨by rw [hres2], ?_⟩⟩
  · refine ⟨resetRecord { k with status := .rotating, rotated_at := some now },
      ?_, hpk, rfl, rfl, rfl, rfl, rfl⟩
    rw [hres]
    exact updateFirst_mem_of_find _ _ keys k hfind
  · refine ⟨{ k with status := .rotating, rotated_at := some now }, ?_, hpk, rfl⟩
    rw [hres2]
    exact updateFirst_mem_of_find _ _ keys k hfind

/-- A worn-out failed key about to be rotated. -/
def c7Key : APIKeyInfo :=
  { key_id := "primary", service := "gemini", status := .failed, last_used := 0,
    success_rate := 20, avg_response_time_ms := 300, daily_requests := 9,
    daily_cost := 2, failure_count := 5 }

theorem rotate_resets_or_leaves_rotating_witness :
    ((rotate_key [c7Key] "primary" 42 false).1 = true ∧
      ∃ k' ∈ (rotate_key [c7Key] "primary" 42 false).2, k'.key_id = "primary" ∧
        k'.status = .active ∧ k'.failure_count = 0 ∧ k'.success_rate = 100 ∧
        k'.daily_requests = 0 ∧ k'.daily_cost = 0) ∧
    ((rotate_key [c7Key] "primary" 42 true).1 = false ∧
      ∃ k' ∈ (rotate_key [c7Key] "primary" 42 true).2, k'.key_id = "primary" ∧
        k'.status = .rotating) := by
  exact rotate_resets_or_leaves_rotating [c7Key] "primary" 42 c7Key (by decide)

end APIKeyManager

namespace APIKeyManager

/-- The record-level invariant of C9. -/
def recordOK (k : APIKeyInfo) : Prop :=
  0 ≤ k.success_rate ∧ k.success_rate ≤ 100 ∧ 0 ≤ k.failure_count

theorem updateRecord_OK (k : APIKeyInfo) (s : Bool) (rt c : Rat) (h : recordOK k) :
    recordOK (updateRecord k s rt c) := by
  obtain ⟨h0, h1, h2⟩ := h
  have hw0 : (0 : Rat) ≤ min (1 / 10) (1 / (((k.daily_requests + 1 : Nat)) : Rat)) :=
    le_min (by norm_num) (by positivity)
  have hw1 : min (1 / 10) (1 / (((k.daily_requests + 1 : Nat)) : Rat)) ≤ 1 :=
    le_trans (min_le_left _ _) (by norm_num)
  unfold recordOK updateRecord
  refine ⟨?_, ?_, ?_⟩
  · dsimp only
    split_ifs
    · norm_num
    · norm_num
    · nlinarith [mul_nonneg h0 (by linarith : (0 : Rat) ≤
        1 - min (1 / 10) (1 / (((k.daily_requests + 1 : Nat)) : Rat)))]
    · nlinarith [mul_nonneg h0 (by linarith : (0 : Rat) ≤
        1 - min (1 / 10) (1 / (((k.daily_requests + 1 : Nat)) : Rat)))]
  · dsimp only
    split_ifs
    · norm_num
    · norm_num
    · nlinarith [mul_nonneg (by linarith : (0 : Rat) ≤ 100 - k.success_rate)
        (by linarith : (0 : Rat) ≤
          1 - min (1 / 10) (1 / (((k.daily_requests + 1 : Nat)) : Rat)))]
    · nlinarith [mul_nonneg (by linarith : (0 : Rat) ≤ 100 - k.success_rate)
        (by linarith : (0 : Rat) ≤
          1 - min (1 / 10) (1 / (((k.daily_requests + 1 : Nat)) : Rat)))]
  · dsimp only
    split_ifs
    · exact le_max_left 0 _
    · omega

theorem updateFirst_OK (p : APIKeyInfo → Bool) (f : APIKeyInfo → APIKeyInfo)
    (hf : ∀ k, recordOK k → recordOK (f k)) :
    ∀ keys, (∀ k ∈ keys, recordOK k) → ∀ k ∈ updateFirst p f keys, recordOK k := by
  intro keys
  induction keys with
  | nil =>
    intro _ k hk
    simp [updateFirst] at hk
  | cons x xs ih =>
    intro hall k hk
    by_cases hx : p x = true
    · simp only [updateFirst, if_pos hx] at hk
      rcases List.mem_cons.mp hk with rfl | hk'
      · exact hf x (hall x (List.mem_cons_self x xs))
      · exact hall k (List.mem_cons.mpr (Or.inr hk'))
    · simp only [updateFirst, if_neg hx] at hk
      rcases List.mem_cons.mp hk with rfl | hk'
      · exact hall k (List.mem_cons_self k xs)
      · exact ih (fun j hj => hall j (List.mem_cons.mpr (Or.inr hj))) k hk'

theorem recoverRecord_OK (now : Nat) (k : APIKeyInfo) (h : recordOK k) :
    recordOK (recoverRecord now k) := by
  obtain ⟨h0, h1, h2⟩ := h
  unfold recoverRecord
  split_ifs
  · exact ⟨h0, h1, le_max_left 0 _⟩
  · exact ⟨h0, h1, h2⟩
  · exact ⟨h0, h1, h2⟩

/-- C9: starting from any state whose records all satisfy
`0 ≤ success_rate ≤ 100` and `0 ≤ failure_count`, each operation of the
manager — key selection's `last_used` stamp, outcome recording,
rotation (with or without a fault), the background recovery scan, and
the daily reset — preserves both bounds on every record. -/
theorem invariants_preserved (keys : List APIKeyInfo)
    (h : ∀ k ∈ keys, recordOK k) :
    (∀ key_id now, ∀ k ∈ stampLastUsed key_id now keys, recordOK k) ∧
    (∀ key_id success rt cost, ∀ k ∈ recordCall keys key_id success rt cost,
      recordOK k) ∧
    (∀ key_id now fault, ∀ k ∈ (rotate_key keys key_id now fault).2, recordOK k) ∧
    (∀ now, ∀ k ∈ health_check_service now keys, recordOK k) ∧
    (∀ k ∈ daily_reset keys, recordOK k) := by
  refine ⟨?_, ?_, ?_, ?_, ?_⟩
  · intro key_id now
    exact updateFirst_OK (fun k => decide (k.key_id = key_id))
      (fun k => { k with last_used := now }) (fun j hj => hj) keys h
  · intro key_id success rt cost k hk
    unfold recordCall at hk
    cases hfind : keys.find? (fun j => decide (j.key_id = key_id)) with
    | none =>
      rw [hfind] at hk
      exact h k hk
    | some j =>
      rw [hfind] at hk
      exact updateFirst_OK _ _ (fun i hi => updateRecord_OK i success rt cost hi)
        keys h k hk
  · intro key_id now fault k hk
    unfold rotate_key at hk
    cases hfind : keys.find? (fun j => decide (j.key_id = key_id)) with
    | none =>
      rw [hfind] at hk
      exact h k hk
    | some j =>
      rw [hfind] at hk
      dsimp only at hk
      by_cases hfault : fault = true
      · rw [if_pos hfault] at hk
        dsimp only at hk
        exact updateFirst_OK (fun i => decide (i.key_id = key_id))
          (fun i => { i with status := APIKeyStatus.rotating, rotated_at := some now })
          (fun i hi => hi) keys h k hk
      · rw [if_neg hfault] at hk
        dsimp only at hk
        exact updateFirst_OK (fun i => decide (i.key_id = key_id)) resetRecord
          (fun i _ => ⟨by norm_num [resetRecord], by norm_num [resetRecord],
            by norm_num [resetRecord]⟩)
          (updateFirst (fun i => decide (i.key_id = key_id))
            (fun i => { i with status := APIKeyStatus.rotating, rotated_at := some now })
            keys)
          (updateFirst_OK (fun i => decide (i.key_id = key_id))
            (fun i => { i with status := APIKeyStatus.rotating, rotated_at := some now })
            (fun i hi => hi) keys h) k hk
  · intro now k hk
    unfold health_check_service at hk
    obtain ⟨j, hj, rfl⟩ := List.mem_map.mp hk
    exact recoverRecord_OK now j (h j hj)
  · intro k hk
    unfold daily_reset at hk
    obtain ⟨j, hj, rfl⟩ := List.mem_map.mp hk
    exact h j hj

theorem invariants_preserved_witness :
    recordOK (updateRecord c2Key false 250 1) := by
  have h := (invariants_preserved [c2Key]
    (by intro k hk; simp at hk; subst hk; exact ⟨by norm_num [c2Key], by norm_num [c2Key],
      by norm_num [c2Key]⟩)).2.1 "primary" false 250 1
  rw [recordCall_singleton c2Key "primary" rfl] at h
  exact h (updateRecord c2Key false 250 1) (List.mem_cons_self _ _)

end APIKeyManager

namespace APIKeyManager

/-- A Failed key last used at second 0, with 5 accumulated failures. -/
def c4Key : APIKeyInfo :=
  { key_id := "primary", service := "openai", status := .failed, last_used := 0,
    success_rate := 40, avg_response_time_ms := 900, daily_requests := 12,
    daily_cost := 3, failure_count := 5 }

/-- C4: the recovery scan compares `timedelta.seconds` — the seconds
component of the idle time with whole days discarded — against 3600.
A Failed record idle for 25 hours (90000 s, i.e. 1 day + 1 h) yields a
seconds component of exactly 3600, the `> 3600` test fails, and the
record is left untouched: neither decremented nor reactivated, even
though it has been idle far longer than 1 hour.  By contrast the same
record idle for only 2 hours is decremented. -/
theorem recovery_skips_day_old_key :
    tdSeconds 90000 c4Key.last_used = 3600 ∧
    health_check_service 90000 [c4Key] = [c4Key] ∧
    tdSeconds 7200 c4Key.last_used = 7200 ∧
    health_check_service 7200 [c4Key] = [{ c4Key with failure_count := 4, status := .active }] := by
  refine ⟨rfl, ?_, rfl, ?_⟩
  · show [recoverRecord 90000 c4Key] = [c4Key]
    unfold recoverRecord
    norm_num [c4Key, tdSeconds]
  · show [recoverRecord 7200 c4Key] = [{ c4Key with failure_count := 4, status := .active }]
    unfold recoverRecord
    norm_num [c4Key, tdSeconds, criticalFailureThreshold]

end APIKeyManager
